import Mathlib

/-!
Verification of the configuration-resolution subsystem of
`asyncgit/src/sync/config.rs`.

The embedding models the external store (git2) abstractly: a `Repository`
either fails to hand out a configuration accessor, or yields a total map
from keys to lookup outcomes.  Each lookup outcome is either an error
(git2 conflates "key not found" with a generic lookup error) or an entry
carrying a `has_value` flag and an optional string value.
-/

namespace Config

/-- The error type of the crate, restricted to the constructors this module
can produce: a store-access (git2) error, and the `GitConfig` variant used
for malformed `push.default` values. -/
inductive Error where
  | Git : String → Error
  | GitConfig : String → Error
deriving DecidableEq, Repr

/-- A configuration entry as exposed by the accessor: `has_value` mirrors
`git2::ConfigEntry::has_value`, `value` mirrors `value()` (which may yield
no string even when a value exists, e.g. for non-UTF-8 data). -/
structure ConfigEntry where
  has_value : Bool
  value : Option String
deriving DecidableEq, Repr

/-- Outcome of `cfg.get_entry(key)`: either an error (the store conflates
"not found" with generic lookup failure) or an entry. -/
inductive LookupResult where
  | err : LookupResult
  | ok : ConfigEntry → LookupResult
deriving DecidableEq, Repr

/-- A repository handle, reduced to what this module observes: the result
of `repo.config()`, which either fails or yields a lookup map over keys. -/
structure Repository where
  config : Except Error (String → LookupResult)

/-- `get_config_string_repo` from config.rs: acquire the configuration
accessor (propagating its failure), look the key up, fold a lookup error
into `Ok(None)`, and otherwise return the entry's value when it has one. -/
def get_config_string_repo (repo : Repository) (key : String) :
    Except Error (Option String) :=
  match repo.config with
  | .error e => .error e
  | .ok cfg =>
    match cfg key with
    | .err => .ok none
    | .ok entry =>
      if entry.has_value then .ok entry.value else .ok none

/-- `status.showUntrackedFiles` states, from config.rs. -/
inductive ShowUntrackedFilesConfig where
  | No : ShowUntrackedFilesConfig
  | Normal : ShowUntrackedFilesConfig
  | All : ShowUntrackedFilesConfig
deriving DecidableEq, Repr

/-- The `Default` impl for `ShowUntrackedFilesConfig` returns `No`. -/
def ShowUntrackedFilesConfig.default : ShowUntrackedFilesConfig :=
  ShowUntrackedFilesConfig.No

/-- `include_none` from config.rs: `matches!(self, Self::No)`. -/
def ShowUntrackedFilesConfig.include_none :
    ShowUntrackedFilesConfig → Bool
  | .No => true
  | _ => false

/-- `include_untracked` from config.rs:
`matches!(self, Self::Normal | Self::All)`. -/
def ShowUntrackedFilesConfig.include_untracked :
    ShowUntrackedFilesConfig → Bool
  | .Normal => true
  | .All => true
  | _ => false

/-- `recurse_untracked_dirs` from config.rs: `matches!(self, Self::All)`. -/
def ShowUntrackedFilesConfig.recurse_untracked_dirs :
    ShowUntrackedFilesConfig → Bool
  | .All => true
  | _ => false

/-- `untracked_files_config_repo` from config.rs: read
`status.showUntrackedFiles`, map `"no"` / `"normal"` to their variants and
fall through to `All` in every other case (present-but-unmatched as well
as absent). -/
def untracked_files_config_repo (repo : Repository) :
    Except Error ShowUntrackedFilesConfig :=
  match get_config_string_repo repo "status.showUntrackedFiles" with
  | .error e => .error e
  | .ok (some s) =>
    if s = "no" then .ok ShowUntrackedFilesConfig.No
    else if s = "normal" then .ok ShowUntrackedFilesConfig.Normal
    else .ok ShowUntrackedFilesConfig.All
  | .ok none => .ok ShowUntrackedFilesConfig.All

/-- `push.default` strategies, from config.rs. -/
inductive PushDefaultStrategyConfig where
  | Nothing : PushDefaultStrategyConfig
  | Current : PushDefaultStrategyConfig
  | Upstream : PushDefaultStrategyConfig
  | Simple : PushDefaultStrategyConfig
  | Matching : PushDefaultStrategyConfig
deriving DecidableEq, Repr

/-- The `Default` impl for `PushDefaultStrategyConfig` returns `Simple`. -/
def PushDefaultStrategyConfig.default : PushDefaultStrategyConfig :=
  PushDefaultStrategyConfig.Simple

/-- The message built by the `format!` in `TryFrom<&str>`: it names the
offending value and lists `nothing, matching, simple, upstream or current`. -/
def push_default_err_msg (value : String) : String :=
  "malformed value for push.default: " ++ value ++
    ", must be one of nothing, matching, simple, upstream or current"

/-- `TryFrom<&str> for PushDefaultStrategyConfig` from config.rs: exact
match over the six tokens, `tracking` aliasing `upstream`; anything else
yields `Error::GitConfig` with the formatted message. -/
def PushDefaultStrategyConfig.try_from (value : String) :
    Except Error PushDefaultStrategyConfig :=
  if value = "nothing" then .ok PushDefaultStrategyConfig.Nothing
  else if value = "current" then .ok PushDefaultStrategyConfig.Current
  else if value = "upstream" ∨ value = "tracking" then
    .ok PushDefaultStrategyConfig.Upstream
  else if value = "simple" then .ok PushDefaultStrategyConfig.Simple
  else if value = "matching" then .ok PushDefaultStrategyConfig.Matching
  else .error (Error.GitConfig (push_default_err_msg value))

/-- `push_default_strategy_config_repo` from config.rs: read
`push.default`, defaulting to `PushDefaultStrategyConfig::default()` when
absent and parsing via `try_from` when present. -/
def push_default_strategy_config_repo (repo : Repository) :
    Except Error PushDefaultStrategyConfig :=
  match get_config_string_repo repo "push.default" with
  | .error e => .error e
  | .ok none => .ok PushDefaultStrategyConfig.default
  | .ok (some s) => PushDefaultStrategyConfig.try_from s

/-- Substring test on character lists, used to state facts about error
messages. -/
def listHasSub (needle : List Char) : List Char → Bool
  | [] => needle.isEmpty
  | c :: t => needle.isPrefixOf (c :: t) || listHasSub needle t

/-- Substring test on strings. -/
def strContains (hay needle : String) : Bool :=
  listHasSub needle.data hay.data

/-- A substring of the tail is a substring of the whole list. -/
theorem listHasSub_append_left (n a : List Char) :
    ∀ b : List Char, listHasSub n b = true → listHasSub n (a ++ b) = true := by
  induction a with
  | nil => intro b h; simpa using h
  | cons c t ih =>
    intro b h
    simp only [List.cons_append, listHasSub, Bool.or_eq_true]
    exact Or.inr (ih b h)

/-- A list is a prefix of itself followed by anything. -/
theorem isPrefixOf_append_self (n : List Char) :
    ∀ t : List Char, n.isPrefixOf (n ++ t) = true := by
  induction n with
  | nil => intro t; simp [List.isPrefixOf]
  | cons c m ih =>
    intro t
    simp [List.isPrefixOf, ih]

/-- A list occurs as a substring at the head of itself followed by
anything. -/
theorem listHasSub_self_append (n t : List Char) :
    listHasSub n (n ++ t) = true := by
  cases hn : n ++ t with
  | nil =>
    rcases List.append_eq_nil.mp hn with ⟨h1, _⟩
    simp [h1, listHasSub, List.isEmpty]
  | cons c r =>
    rw [listHasSub, ← hn, isPrefixOf_append_self, Bool.true_or]

/-- The error message contains the offending value as a substring. -/
theorem push_default_err_msg_names_value (value : String) :
    strContains (push_default_err_msg value) value = true := by
  have h1 : (push_default_err_msg value).data =
      "malformed value for push.default: ".data ++
        (value.data ++
          ", must be one of nothing, matching, simple, upstream or current".data) := by
    simp [push_default_err_msg, String.data_append]
  rw [strContains, h1]
  exact listHasSub_append_left _ _ _ (listHasSub_self_append _ _)

/-- Constant tokens of the suffix are substrings of the message for every
offending value. -/
theorem push_default_err_msg_contains_suffix_token (value tok : String)
    (h : listHasSub tok.data
        ", must be one of nothing, matching, simple, upstream or current".data
          = true) :
    strContains (push_default_err_msg value) tok = true := by
  have h1 : (push_default_err_msg value).data =
      ("malformed value for push.default: ".data ++ value.data) ++
        ", must be one of nothing, matching, simple, upstream or current".data := by
    simp [push_default_err_msg, String.data_append]
  rw [strContains, h1]
  exact listHasSub_append_left _ _ _ h

/-- With a readable store, `get_config_string_repo` always succeeds. -/
theorem get_config_string_repo_ok (cfg : String → LookupResult) (key : String) :
    ∃ o, get_config_string_repo ⟨Except.ok cfg⟩ key = Except.ok o := by
  cases h : cfg key with
  | err => exact ⟨none, by simp [get_config_string_repo, h]⟩
  | ok e =>
    by_cases hv : e.has_value = true
    · exact ⟨e.value, by simp [get_config_string_repo, h, hv]⟩
    · exact ⟨none, by simp [get_config_string_repo, h, hv]⟩

/-- C1: with a readable store, `untracked_files_config_repo` never fails and
resolves `"no"` to `No`, `"normal"` to `Normal`, and every other present
string as well as the absent case to `All`. -/
theorem untracked_files_resolution (cfg : String → LookupResult) :
    untracked_files_config_repo ⟨Except.ok cfg⟩ =
      Except.ok
        (match get_config_string_repo ⟨Except.ok cfg⟩
            "status.showUntrackedFiles" with
        | Except.ok (some s) =>
          if s = "no" then ShowUntrackedFilesConfig.No
          else if s = "normal" then ShowUntrackedFilesConfig.Normal
          else ShowUntrackedFilesConfig.All
        | _ => ShowUntrackedFilesConfig.All) := by
  obtain ⟨o, ho⟩ :=
    get_config_string_repo_ok cfg "status.showUntrackedFiles"
  unfold untracked_files_config_repo
  rw [ho]
  cases o with
  | none => rfl
  | some s =>
    by_cases h1 : s = "no" <;> by_cases h2 : s = "normal" <;>
      simp [h1, h2]

/-- C2: `push_default_strategy_config_repo` resolves an absent
`push.default` to `Simple` and parses a present value with the exact token
table, `tracking` aliasing `Upstream`. -/
theorem push_default_strategy_resolution (cfg : String → LookupResult) :
    (get_config_string_repo ⟨Except.ok cfg⟩ "push.default" =
        Except.ok none →
      push_default_strategy_config_repo ⟨Except.ok cfg⟩ =
        Except.ok PushDefaultStrategyConfig.Simple)
  ∧ (∀ s : String,
      get_config_string_repo ⟨Except.ok cfg⟩ "push.default" =
          Except.ok (some s) →
      push_default_strategy_config_repo ⟨Except.ok cfg⟩ =
        PushDefaultStrategyConfig.try_from s)
  ∧ PushDefaultStrategyConfig.try_from "nothing" =
      Except.ok PushDefaultStrategyConfig.Nothing
  ∧ PushDefaultStrategyConfig.try_from "current" =
      Except.ok PushDefaultStrategyConfig.Current
  ∧ PushDefaultStrategyConfig.try_from "upstream" =
      Except.ok PushDefaultStrategyConfig.Upstream
  ∧ PushDefaultStrategyConfig.try_from "tracking" =
      Except.ok PushDefaultStrategyConfig.Upstream
  ∧ PushDefaultStrategyConfig.try_from "simple" =
      Except.ok PushDefaultStrategyConfig.Simple
  ∧ PushDefaultStrategyConfig.try_from "matching" =
      Except.ok PushDefaultStrategyConfig.Matching := by
  refine ⟨?_, ?_, by rfl, by rfl, by rfl, by rfl, by rfl, by rfl⟩
  · intro h
    unfold push_default_strategy_config_repo
    rw [h]
    rfl
  · intro s h
    unfold push_default_strategy_config_repo
    rw [h]

/-- C2 witness: absent key resolves to `Simple`; value `"upstream"`
resolves to `Upstream`. -/
theorem push_default_strategy_resolution_witness :
    push_default_strategy_config_repo
        ⟨Except.ok (fun _ => LookupResult.err)⟩ =
      Except.ok PushDefaultStrategyConfig.Simple
  ∧ push_default_strategy_config_repo
        ⟨Except.ok (fun _ => LookupResult.ok ⟨true, some "upstream"⟩)⟩ =
      Except.ok PushDefaultStrategyConfig.Upstream :=
  ⟨(push_default_strategy_resolution (fun _ => LookupResult.err)).1
      (by rfl),
   by
    have h :=
      (push_default_strategy_resolution
        (fun _ => LookupResult.ok ⟨true, some "upstream"⟩)).2.1
        "upstream" (by rfl)
    rw [h]
    rfl⟩

/-- C3 counterexample: `tracking` is a recognized token, yet the malformed
message produced for `"bogus"` does not mention it, so the message does
not enumerate all valid tokens. -/
theorem push_default_message_omits_tracking_alias :
    PushDefaultStrategyConfig.try_from "tracking" =
        Except.ok PushDefaultStrategyConfig.Upstream
  ∧ push_default_strategy_config_repo
        ⟨Except.ok (fun _ => LookupResult.ok ⟨true, some "bogus"⟩)⟩ =
      Except.error (Error.GitConfig (push_default_err_msg "bogus"))
  ∧ strContains (push_default_err_msg "bogus") "bogus" = true
  ∧ strContains (push_default_err_msg "bogus") "tracking" = false :=
  ⟨by rfl, by rfl, by decide, by decide⟩

/-- C3 amended: an unrecognized present value of `push.default` makes the
resolver fail with a message that names the offending value and enumerates
the five canonical tokens (the `tracking` alias is omitted from the
enumeration). -/
theorem push_default_unrecognized_fails (cfg : String → LookupResult)
    (s : String)
    (hget : get_config_string_repo ⟨Except.ok cfg⟩ "push.default" =
      Except.ok (some s))
    (h1 : s ≠ "nothing") (h2 : s ≠ "current") (h3 : s ≠ "upstream")
    (h4 : s ≠ "tracking") (h5 : s ≠ "simple") (h6 : s ≠ "matching") :
    push_default_strategy_config_repo ⟨Except.ok cfg⟩ =
        Except.error (Error.GitConfig (push_default_err_msg s))
  ∧ strContains (push_default_err_msg s) s = true
  ∧ strContains (push_default_err_msg s) "nothing" = true
  ∧ strContains (push_default_err_msg s) "matching" = true
  ∧ strContains (push_default_err_msg s) "simple" = true
  ∧ strContains (push_default_err_msg s) "upstream" = true
  ∧ strContains (push_default_err_msg s) "current" = true := by
  refine ⟨?_, push_default_err_msg_names_value s, ?_, ?_, ?_, ?_, ?_⟩
  · unfold push_default_strategy_config_repo
    rw [hget]
    unfold PushDefaultStrategyConfig.try_from
    simp [h1, h2, h3, h4, h5, h6]
  all_goals exact push_default_err_msg_contains_suffix_token _ _ (by decide)

/-- C3 witness: the store value `"bogus"` makes the resolver fail with the
formatted message. -/
theorem push_default_unrecognized_fails_witness :
    push_default_strategy_config_repo
        ⟨Except.ok (fun _ => LookupResult.ok ⟨true, some "bogus"⟩)⟩ =
      Except.error (Error.GitConfig (push_default_err_msg "bogus")) :=
  (push_default_unrecognized_fails
    (fun _ => LookupResult.ok ⟨true, some "bogus"⟩) "bogus" (by rfl)
    (by decide) (by decide) (by decide) (by decide) (by decide)
    (by decide)).1

/-- C4: when the accessor is acquired but the entry lookup errors,
`get_config_string_repo` returns `Ok(None)`; an error is surfaced only
when acquiring the accessor itself failed, and it is that same error. -/
theorem get_config_string_repo_error_handling
    (store : Except Error (String → LookupResult)) (key : String) :
    (∀ cfg, store = Except.ok cfg → cfg key = LookupResult.err →
      get_config_string_repo ⟨store⟩ key = Except.ok none)
  ∧ (∀ e, get_config_string_repo ⟨store⟩ key = Except.error e →
      store = Except.error e) := by
  constructor
  · intro cfg hs hk
    subst hs
    simp [get_config_string_repo, hk]
  · intro e he
    cases store with
    | error e0 =>
      simp only [get_config_string_repo] at he
      rw [Except.error.injEq] at he
      rw [he]
    | ok cfg =>
      exfalso
      obtain ⟨o, ho⟩ := get_config_string_repo_ok cfg key
      rw [ho] at he
      exact Except.noConfusion he

/-- C4 witness: a failing lookup in a readable store yields `Ok(None)`; a
reader error implies the store itself failed with that error. -/
theorem get_config_string_repo_error_handling_witness :
    get_config_string_repo ⟨Except.ok (fun _ => LookupResult.err)⟩
        "user.name" = Except.ok none
  ∧ (Except.error (Error.Git "corrupt") :
        Except Error (String → LookupResult)) =
      Except.error (Error.Git "corrupt") :=
  ⟨(get_config_string_repo_error_handling
      (Except.ok (fun _ => LookupResult.err)) "user.name").1
      (fun _ => LookupResult.err) rfl rfl,
   (get_config_string_repo_error_handling
      (Except.error (Error.Git "corrupt")) "user.name").2
      (Error.Git "corrupt") (by rfl)⟩

/-- C5: when the lookup succeeds, `get_config_string_repo` returns the
entry's string when the entry carries one, and `Ok(None)` when the entry
reports no value. -/
theorem get_config_string_repo_value_cases (cfg : String → LookupResult)
    (key : String) (e : ConfigEntry) (h : cfg key = LookupResult.ok e) :
    (∀ v, e.has_value = true → e.value = some v →
      get_config_string_repo ⟨Except.ok cfg⟩ key = Except.ok (some v))
  ∧ (e.has_value = false →
      get_config_string_repo ⟨Except.ok cfg⟩ key = Except.ok none) := by
  constructor
  · intro v hv hval
    simp [get_config_string_repo, h, hv, hval]
  · intro hv
    simp [get_config_string_repo, h, hv]

/-- C5 witness: a set `user.name` comes back as `Some`, a structurally
present but unset entry as `None`. -/
theorem get_config_string_repo_value_cases_witness :
    get_config_string_repo
        ⟨Except.ok (fun _ => LookupResult.ok ⟨true, some "alice"⟩)⟩
        "user.name" = Except.ok (some "alice")
  ∧ get_config_string_repo
        ⟨Except.ok (fun _ => LookupResult.ok ⟨false, none⟩)⟩
        "user.name" = Except.ok none :=
  ⟨(get_config_string_repo_value_cases
      (fun _ => LookupResult.ok ⟨true, some "alice"⟩) "user.name"
      ⟨true, some "alice"⟩ rfl).1 "alice" rfl rfl,
   (get_config_string_repo_value_cases
      (fun _ => LookupResult.ok ⟨false, none⟩) "user.name"
      ⟨false, none⟩ rfl).2 rfl⟩

/-- C6: the three predicates characterize the variants:
`include_none` ⇔ `No`, `include_untracked` ⇔ `Normal` or `All`,
`recurse_untracked_dirs` ⇔ `All`. -/
theorem show_untracked_predicates (v : ShowUntrackedFilesConfig) :
    (v.include_none = true ↔ v = ShowUntrackedFilesConfig.No)
  ∧ (v.include_untracked = true ↔
      (v = ShowUntrackedFilesConfig.Normal ∨
        v = ShowUntrackedFilesConfig.All))
  ∧ (v.recurse_untracked_dirs = true ↔
      v = ShowUntrackedFilesConfig.All) := by
  cases v <;>
    simp [ShowUntrackedFilesConfig.include_none,
      ShowUntrackedFilesConfig.include_untracked,
      ShowUntrackedFilesConfig.recurse_untracked_dirs]

/-- C7: both typed resolvers return exactly the error produced by
`get_config_string_repo`, without wrapping or transforming it. -/
theorem resolvers_propagate_reader_error (repo : Repository) (e : Error) :
    (get_config_string_repo repo "status.showUntrackedFiles" =
        Except.error e →
      untracked_files_config_repo repo = Except.error e)
  ∧ (get_config_string_repo repo "push.default" = Except.error e →
      push_default_strategy_config_repo repo = Except.error e) := by
  constructor
  · intro h
    unfold untracked_files_config_repo
    rw [h]
  · intro h
    unfold push_default_strategy_config_repo
    rw [h]

/-- C7 witness: with an unreadable store, both resolvers surface the
store's own error. -/
theorem resolvers_propagate_reader_error_witness :
    untracked_files_config_repo ⟨Except.error (Error.Git "broken")⟩ =
      Except.error (Error.Git "broken")
  ∧ push_default_strategy_config_repo
        ⟨Except.error (Error.Git "broken")⟩ =
      Except.error (Error.Git "broken") :=
  ⟨(resolvers_propagate_reader_error ⟨Except.error (Error.Git "broken")⟩
      (Error.Git "broken")).1 (by rfl),
   (resolvers_propagate_reader_error ⟨Except.error (Error.Git "broken")⟩
      (Error.Git "broken")).2 (by rfl)⟩

/-- C8: resolution is a pure function of the store contents, so two calls
against the same unchanged store return identical results. -/
theorem resolvers_deterministic (repo : Repository) :
    untracked_files_config_repo repo = untracked_files_config_repo repo
  ∧ push_default_strategy_config_repo repo =
      push_default_strategy_config_repo repo :=
  ⟨rfl, rfl⟩

/-- C9: the `Default` impl returns `No`, which differs from `All`, the
value `untracked_files_config_repo` resolves to when the key is absent. -/
theorem default_no_differs_from_absent_fallback :
    ShowUntrackedFilesConfig.default = ShowUntrackedFilesConfig.No
  ∧ ShowUntrackedFilesConfig.default ≠ ShowUntrackedFilesConfig.All
  ∧ ∀ repo : Repository,
      get_config_string_repo repo "status.showUntrackedFiles" =
        Except.ok none →
      untracked_files_config_repo repo =
        Except.ok ShowUntrackedFilesConfig.All := by
  refine ⟨rfl, by decide, ?_⟩
  intro repo h
  unfold untracked_files_config_repo
  rw [h]

/-- C9 witness: a store without the key resolves to `All`, unlike the
`Default` value `No`. -/
theorem default_no_differs_from_absent_fallback_witness :
    untracked_files_config_repo ⟨Except.ok (fun _ => LookupResult.err)⟩ =
      Except.ok ShowUntrackedFilesConfig.All :=
  default_no_differs_from_absent_fallback.2.2
    ⟨Except.ok (fun _ => LookupResult.err)⟩ (by rfl)

/-- C10: an entry with `has_value` set but no string representation makes
`get_config_string_repo` return `Ok(None)`, not an error. -/
theorem has_value_without_string_yields_none (cfg : String → LookupResult)
    (key : String) (e : ConfigEntry) (h : cfg key = LookupResult.ok e)
    (hv : e.has_value = true) (hn : e.value = none) :
    get_config_string_repo ⟨Except.ok cfg⟩ key = Except.ok none := by
  simp [get_config_string_repo, h, hv, hn]

/-- C10 witness: a valueless-but-present entry yields `Ok(None)`. -/
theorem has_value_without_string_yields_none_witness :
    get_config_string_repo
        ⟨Except.ok (fun _ => LookupResult.ok ⟨true, none⟩)⟩ "user.name" =
      Except.ok none :=
  has_value_without_string_yields_none
    (fun _ => LookupResult.ok ⟨true, none⟩) "user.name" ⟨true, none⟩
    rfl rfl rfl

end Config

